import Mathlib

/-!
Verification of the sustechcourse scraping library (src/lib.rs) against its
natural-language specification.

The development shallowly embeds the pieces of src/lib.rs that the claims are
about:

* an HTML tree (the select.rs document model restricted to what the code
  uses: elements with a tag name, attributes and children, plus text nodes);
* the select.rs search combinators used by the code:
  `doc.find(a.descendant(b))` (element matching `b` with a strict ancestor
  matching `a`, in document order), `node.find(p)` (strict descendants of a
  node matching `p`, in document order), `Node::text` (concatenated text of
  the subtree) and the predicates `Attr(key, value)`, `Name(tag)`,
  `Class(c)`;
* `FormFieldExtract::extract_form`, modelling the Rust `HashMap` as an
  association list whose `insert` replaces any existing binding for the key;
* `LoginedAgent::parse_courses` (the `dataList` table extractor);
* the term-key computation of `LoginedAgent::query_course`, with the `u16`
  addition `year + 1` made explicit as addition modulo 2^16;
* `UserAgent::login`, with the HTTP transport abstracted as the two
  responses the function consumes (the GET of the login page and the POST of
  the credential form); a response carries its status code and its already
  parsed body.  `reqwest`'s `error_for_status` errors exactly on statuses in
  400..600, `StatusCode::is_client_error` is 400..500, and `StatusCode`'s
  `Display` prints the numeric code followed by the canonical reason phrase.
-/

/-- An HTML node: an element with tag name, attributes and children, or a
text node.  This is the fragment of the select.rs document model that
src/lib.rs consumes. -/
inductive Html where
  | text (s : String)
  | elem (tag : String) (attrs : List (String × String)) (children : List Html)

/-- Attribute lookup on a node, as in select.rs `Node::attr`: text nodes
have no attributes. -/
def Html.attr : Html → String → Option String
  | .text _, _ => none
  | .elem _ attrs _, name => (attrs.find? (fun p => p.1 = name)).map (fun p => p.2)

/-- The select.rs predicate `Attr(key, value)`: the node is an element whose
attribute `key` equals `value`. -/
def attrIs (key value : String) : Html → Bool :=
  fun n => n.attr key == some value

/-- The select.rs predicate `Name(tag)`: the node is an element with the
given tag name. -/
def nameIs (tag : String) : Html → Bool
  | .text _ => false
  | .elem t _ _ => t == tag

/-- The Rust `str::trim`: the string with leading and trailing whitespace
removed. -/
def strTrim (s : String) : String :=
  ⟨((s.data.dropWhile Char.isWhitespace).reverse.dropWhile Char.isWhitespace).reverse⟩

/-- Accumulating pass of `splitWS`: split at whitespace runs, dropping empty
pieces; `acc` holds the current word reversed. -/
def splitWSAux : List Char → List Char → List String
  | [], acc => if acc.isEmpty then [] else [⟨acc.reverse⟩]
  | c :: cs, acc =>
    if c.isWhitespace then
      if acc.isEmpty then splitWSAux cs [] else (⟨acc.reverse⟩ : String) :: splitWSAux cs []
    else splitWSAux cs (c :: acc)

/-- The Rust `str::split_whitespace`: the whitespace-separated words of a
string, empty pieces dropped. -/
def splitWS (s : String) : List String :=
  splitWSAux s.data []

/-- The select.rs predicate `Class(c)`: the node has a `class` attribute one
of whose whitespace-separated words equals `c` (select.rs splits the
attribute with `split_whitespace`). -/
def hasClass (c : String) : Html → Bool :=
  fun n =>
    match n.attr "class" with
    | some s => (splitWS s).any (fun w => w == c)
    | none => false

mutual
/-- The select.rs `Node::text`: concatenation of all text in the subtree, in
document order. -/
def Html.nodeText : Html → String
  | .text s => s
  | .elem _ _ cs => nodeTextList cs
/-- Text of a list of sibling nodes, left to right. -/
def nodeTextList : List Html → String
  | [] => ""
  | c :: cs => c.nodeText ++ nodeTextList cs
end

mutual
/-- All nodes of a subtree in document (preorder) order, the root included. -/
def allNodesOfNode : Html → List Html
  | .text s => [.text s]
  | .elem t ats cs => .elem t ats cs :: allNodesOfList cs
/-- All nodes of a forest in document (preorder) order. -/
def allNodesOfList : List Html → List Html
  | [] => []
  | c :: cs => allNodesOfNode c ++ allNodesOfList cs
end

mutual
/-- Document-order traversal implementing the select.rs predicate
`a.descendant(b)`: collect every node satisfying `b` that has a strict
ancestor satisfying `a`.  The flag records whether an ancestor matching `a`
has already been passed. -/
def findDescNode (a b : Html → Bool) : Bool → Html → List Html
  | seen, .text s =>
    if seen && b (.text s) then [.text s] else []
  | seen, .elem t ats cs =>
    (if seen && b (.elem t ats cs) then [.elem t ats cs] else []) ++
      findDescList a b (seen || a (.elem t ats cs)) cs
/-- Traversal of `findDescNode` over a forest. -/
def findDescList (a b : Html → Bool) : Bool → List Html → List Html
  | _, [] => []
  | seen, c :: cs => findDescNode a b seen c ++ findDescList a b seen cs
end

/-- The select.rs call `doc.find(a.descendant(b))`: all nodes matching `b`
with a strict ancestor matching `a`, in document order.  A document is the
forest of its root nodes. -/
def findDesc (doc : List Html) (a b : Html → Bool) : List Html :=
  findDescList a b false doc

/-- Strict descendants of a node in document order, as iterated by the
select.rs call `node.find(p)` before filtering. -/
def descendants (n : Html) : List Html :=
  allNodesOfList (match n with | .text _ => [] | .elem _ _ cs => cs)

/-- The select.rs call `node.find(p)`: strict descendants of `n` matching
`p`, in document order. -/
def findInNode (n : Html) (p : Html → Bool) : List Html :=
  (descendants n).filter p

/-- The `NodeExt` trait of src/lib.rs: text of an `Option<Node>`, the empty
string when the node is absent. -/
def optText : Option Html → String
  | some n => n.nodeText
  | none => ""

/-- A form-field map, the model of the Rust `HashMap<&str, &str>` built by
`extract_form`.  Represented as an association list with unique keys; only
`mapLookup` and membership are its interface, the order of entries is
immaterial. -/
abbrev FormMap : Type := List (String × String)

/-- The Rust `HashMap::insert`: any existing binding of the key is replaced
by the new value. -/
def mapInsert (m : FormMap) (k v : String) : FormMap :=
  (List.filter (fun p => p.1 ≠ k) m) ++ [(k, v)]

/-- Lookup in a form-field map. -/
def mapLookup (m : FormMap) (k : String) : Option String :=
  ((List.find? (fun p => p.1 = k) m)).map (fun p => p.2)

/-- The `FormFieldExtract::extract_form` of src/lib.rs: walk every `<input>`
descendant of the element(s) matching the form predicate, and insert
`name -> value` for each input carrying both a `name` and a `value`
attribute. -/
def extract_form (doc : List Html) (form : Html → Bool) : FormMap :=
  (findDesc doc form (nameIs "input")).foldl
    (fun fields input =>
      match input.attr "name", input.attr "value" with
      | some n, some v => mapInsert fields n v
      | _, _ => fields)
    []

/-- The `name`/`value` pairs of the inputs that `extract_form` inserts, in
document order (inputs missing either attribute contribute nothing). -/
def inputPairs (doc : List Html) (form : Html → Bool) : List (String × String) :=
  (findDesc doc form (nameIs "input")).filterMap
    (fun input =>
      match input.attr "name", input.attr "value" with
      | some n, some v => some (n, v)
      | _, _ => none)

/-- The `Course` record of src/lib.rs: ten string-valued fields. -/
structure Course where
  code : String
  term : String
  name : String
  grade : String
  score : String
  point : String
  hours : String
  eval_method : String
  course_type : String
  category : String
  deriving DecidableEq

/-- The `<td>` cells of a row, in document order: the select.rs call
`row.find(Name("td"))` of `parse_courses`. -/
def rowCells (row : Html) : List Html :=
  findInNode row (nameIs "td")

/-- The per-row body of the `filter_map` in `parse_courses`: drop the first
cell (the row-sequence number), require the next two (term and code), read
the remaining eight fields positionally with missing cells as the empty
string (successive `elems.next()` calls are successive positions). -/
def parseRow (row : Html) : Option Course :=
  match rowCells row with
  | _ :: term :: code :: rest =>
    some { term := term.nodeText
           code := code.nodeText
           name := optText rest[0]?
           grade := optText rest[1]?
           score := optText rest[2]?
           point := optText rest[3]?
           hours := optText rest[4]?
           eval_method := optText rest[5]?
           course_type := optText rest[6]?
           category := optText rest[7]? }
  | _ => none

/-- The rows scanned by `parse_courses`: all `<tr>` descendants of the
element with id `dataList`, in document order. -/
def dataListRows (doc : List Html) : List Html :=
  findDesc doc (attrIs "id" "dataList") (nameIs "tr")

/-- The `LoginedAgent::parse_courses` of src/lib.rs, materialized to a list
as `query_course`/`all_courses` do with `collect()`: skip the first row and
keep each remaining row that yields a course. -/
def parse_courses (doc : List Html) : List Course :=
  ((dataListRows doc).drop 1).filterMap parseRow

/-- One run of the (lazy, side-effect free) course extractor against a
document: the produced records together with the document it leaves behind,
which `parse_courses` only reads. -/
def parse_courses_run (doc : List Html) : List Course × List Html :=
  (parse_courses doc, doc)

/-- The term key computed by `query_course`:
`format!("{}-{}-{}", year, year + 1, term)` where `year : u16` and
`term : u8`.  The `u16` addition `year + 1` is addition modulo 2^16 (release
semantics); `Display` of the unsigned integers is decimal. -/
def query_term_key (year term : Nat) : String :=
  Nat.repr year ++ "-" ++ Nat.repr ((year + 1) % 65536) ++ "-" ++ Nat.repr term

/-- The form that `query_course` posts: the fields extracted from the
element with id `kscjQueryForm`, with the term key inserted under `kksj`. -/
def queryCourseForm (doc : List Html) (year term : Nat) : FormMap :=
  mapInsert (extract_form doc (attrIs "id" "kscjQueryForm")) "kksj" (query_term_key year term)

/-- Canonical reason phrases of the `http` crate's `StatusCode`, as used by
its `Display` implementation (client- and server-error classes, the ones the
login path can print). -/
def canonicalReason : Nat → Option String
  | 400 => some "Bad Request"
  | 401 => some "Unauthorized"
  | 402 => some "Payment Required"
  | 403 => some "Forbidden"
  | 404 => some "Not Found"
  | 405 => some "Method Not Allowed"
  | 406 => some "Not Acceptable"
  | 407 => some "Proxy Authentication Required"
  | 408 => some "Request Timeout"
  | 409 => some "Conflict"
  | 410 => some "Gone"
  | 411 => some "Length Required"
  | 412 => some "Precondition Failed"
  | 413 => some "Payload Too Large"
  | 414 => some "URI Too Long"
  | 415 => some "Unsupported Media Type"
  | 416 => some "Range Not Satisfiable"
  | 417 => some "Expectation Failed"
  | 418 => some "I\x27m a teapot"
  | 421 => some "Misdirected Request"
  | 422 => some "Unprocessable Entity"
  | 423 => some "Locked"
  | 424 => some "Failed Dependency"
  | 426 => some "Upgrade Required"
  | 428 => some "Precondition Required"
  | 429 => some "Too Many Requests"
  | 431 => some "Request Header Fields Too Large"
  | 451 => some "Unavailable For Legal Reasons"
  | 500 => some "Internal Server Error"
  | 501 => some "Not Implemented"
  | 502 => some "Bad Gateway"
  | 503 => some "Service Unavailable"
  | 504 => some "Gateway Timeout"
  | 505 => some "HTTP Version Not Supported"
  | 506 => some "Variant Also Negotiates"
  | 507 => some "Insufficient Storage"
  | 508 => some "Loop Detected"
  | 510 => some "Not Extended"
  | 511 => some "Network Authentication Required"
  | _ => none

/-- The `Display` of the `http` crate's `StatusCode`: the numeric code, a
space, and the canonical reason phrase. -/
def statusDisplay (s : Nat) : String :=
  Nat.repr s ++ " " ++ (canonicalReason s).getD "<unknown status code>"

/-- The `StatusCode::is_client_error` test: 400..500. -/
def isClientError (s : Nat) : Bool :=
  decide (400 ≤ s ∧ s < 500)

/-- The status class on which reqwest's `error_for_status` errors:
client errors and server errors, 400..600. -/
def isErrorStatus (s : Nat) : Bool :=
  decide (400 ≤ s ∧ s < 600)

/-- An HTTP response as login consumes it: the status code and the parsed
body. -/
structure Response where
  status : Nat
  body : List Html

/-- The unauthenticated `UserAgent`: its transport (reqwest `Client`),
abstracted to an identifying token. -/
structure UserAgent where
  client : Nat
  deriving DecidableEq

/-- The authenticated `LoginedAgent`, wrapping the transport moved out of
the `UserAgent`. -/
structure LoginedAgent where
  client : Nat
  deriving DecidableEq

/-- The errors `login` returns: the domain-specific
`CourseError::LoginError` with its message, or a generic transport error (a
reqwest status error, carrying the status, or a connection-level failure,
carrying none). -/
inductive AppError where
  | loginError (message : String)
  | transportError (status : Option Nat)
  deriving DecidableEq

/-- The first element of class `alert` nested inside the element with id
`fm1`, in document order: `doc.find(Attr("id", "fm1").descendant(Class("alert"))).next()`. -/
def firstAlert (body : List Html) : Option Html :=
  (findDesc body (attrIs "id" "fm1") (hasClass "alert")).head?

/-- The credential form `login` posts: the fields extracted from the
element with id `fm1`, with `username` and `password` inserted. -/
def buildLoginForm (body : List Html) (username password : String) : FormMap :=
  mapInsert (mapInsert (extract_form body (attrIs "id" "fm1")) "username" username) "password" password

/-- Classification of the credential POST response in `login`
(`resp.error_for_status_ref()` and the following match): non-error status
yields the authenticated agent; a client-error status yields a
`LoginError` whose message is the trimmed text of the first `alert` inside
`fm1`, or `"server return {status}"` when there is none; any other error
status propagates as a status (transport) error. -/
def classifyLogin (client : Nat) (resp : Response) : Except AppError LoginedAgent :=
  if isErrorStatus resp.status then
    if isClientError resp.status then
      .error (.loginError
        (match firstAlert resp.body with
         | some alert => strTrim alert.nodeText
         | none => "server return " ++ statusDisplay resp.status))
    else
      .error (.transportError (some resp.status))
  else
    .ok { client := client }

/-- The tail of `login` from the credential POST on: a failed send is a
transport error, otherwise the response is classified. -/
def loginPost (client : Nat) (post : Except Unit Response) : Except AppError LoginedAgent :=
  match post with
  | .error _ => .error (.transportError none)
  | .ok resp => classifyLogin client resp

/-- The `UserAgent::login` of src/lib.rs over the abstracted transport:
`getLogin` is the outcome of the GET of the login page (step 1),
`postLogin` gives the outcome of POSTing a given credential form (step 5).
A failed GET or an error status on it is a transport error; otherwise the
`fm1` form is extracted, the credentials inserted, and the POST response
classified. -/
def login (ua : UserAgent) (username password : String)
    (getLogin : Except Unit Response)
    (postLogin : FormMap → Except Unit Response) : Except AppError LoginedAgent :=
  match getLogin with
  | .error _ => .error (.transportError none)
  | .ok page =>
    if isErrorStatus page.status then
      .error (.transportError (some page.status))
    else
      loginPost ua.client (postLogin (buildLoginForm page.body username password))

/-! ## Concrete fixtures

Small concrete documents and responses used by the witness and
counterexample theorems below. -/

/-- A table cell holding one piece of text. -/
def td (s : String) : Html :=
  .elem "td" [] [.text s]

/-- A complete data row: sequence number, term, code, and all eight optional
fields. -/
def fullRow : Html :=
  .elem "tr" []
    [td "1", td "2018-2019-1", td "CS101", td "Intro", td "A", td "95", td "3.0", td "48",
     td "exam", td "required", td "major"]

/-- A sparse data row: only the sequence number, term, code, name and grade
cells are present. -/
def shortRow : Html :=
  .elem "tr" [] [td "2", td "2019-2020-2", td "MA102", td "Calc", td "B"]

/-- A results page: the `dataList` table with a header row, a complete row,
a sparse row, and a row with too few cells. -/
def tableDoc : List Html :=
  [.elem "table" [("id", "dataList")]
    [.elem "tr" [] [.elem "th" [] [.text "seq"]],
     fullRow,
     shortRow,
     .elem "tr" [] [td "3", td "lonely"]]]

/-- The course record parsed from `shortRow`: the five absent cells are
empty strings. -/
def shortCourse : Course :=
  { code := "MA102", term := "2019-2020-2", name := "Calc", grade := "B",
    score := "", point := "", hours := "", eval_method := "",
    course_type := "", category := "" }

/-- A login page: the `fm1` form with two hidden handshake inputs and a
submit button with no `name`. -/
def loginPage : Response :=
  { status := 200,
    body := [.elem "form" [("id", "fm1")]
      [.elem "input" [("name", "lt"), ("value", "LT-1")] [],
       .elem "input" [("name", "execution"), ("value", "e1s1")] [],
       .elem "input" [("type", "submit"), ("value", "Login")] []]] }

/-- A form with two inputs sharing the name `a`. -/
def dupForm : List Html :=
  [.elem "form" [("id", "fm1")]
    [.elem "input" [("name", "a"), ("value", "1")] [],
     .elem "input" [("name", "a"), ("value", "2")] []]]

/-- The alert banner of the rejected-credentials page, with surrounding
whitespace in its text. -/
def alertNode : Html :=
  .elem "div" [("class", "alert alert-danger")] [.text "  Invalid credentials "]

/-- A 401 response to the credential POST whose body carries an alert
banner inside `fm1`. -/
def alertResp : Response :=
  { status := 401, body := [.elem "form" [("id", "fm1")] [alertNode]] }

/-! ## Helper lemmas -/

/-- Looking a key up after a `HashMap`-style insert: the inserted key maps
to the new value, every other key is unaffected. -/
theorem mapLookup_mapInsert (m : FormMap) (k v q : String) :
    mapLookup (mapInsert m k v) q = if q = k then some v else mapLookup m q := by
  induction m with
  | nil =>
    by_cases h : q = k
    · subst h; simp [mapInsert, mapLookup, List.find?]
    · simp [mapInsert, mapLookup, List.find?, h, Ne.symm h]
  | cons a m ih =>
    by_cases hak : a.1 = k <;> by_cases haq : a.1 = q <;>
      simp_all [mapInsert, mapLookup, List.find?_cons, List.filter_cons]

/-- Folding the insert of `extract_form` over a node list is folding plain
inserts over the `name`/`value` pairs it keeps. -/
theorem foldl_insert_filterMap (nodes : List Html) (m : FormMap) :
    nodes.foldl
      (fun fields input =>
        match input.attr "name", input.attr "value" with
        | some n, some v => mapInsert fields n v
        | _, _ => fields) m
    = (nodes.filterMap
        (fun input =>
          match input.attr "name", input.attr "value" with
          | some n, some v => some (n, v)
          | _, _ => none)).foldl (fun fields p => mapInsert fields p.1 p.2) m := by
  induction nodes generalizing m with
  | nil => rfl
  | cons x t ih =>
    simp only [List.foldl_cons, List.filterMap_cons]
    rcases hn : x.attr "name" with _ | n <;> rcases hv : x.attr "value" with _ | v <;>
      simp [hn, hv, ih]

/-- The `extract_form` fold, rephrased over its kept `name`/`value` pairs. -/
theorem extract_form_eq_foldl (doc : List Html) (form : Html → Bool) :
    extract_form doc form
      = (inputPairs doc form).foldl (fun fields p => mapInsert fields p.1 p.2) [] := by
  unfold extract_form inputPairs
  exact foldl_insert_filterMap _ _

/-- Looking up a key in a fold of inserts finds the value of the last pair
carrying that key, if any. -/
theorem mapLookup_foldl_insert (pairs : List (String × String)) (q : String) :
    mapLookup (pairs.foldl (fun fields p => mapInsert fields p.1 p.2) []) q
      = ((pairs.filter (fun p => p.1 = q)).getLast?).map (fun p => p.2) := by
  induction pairs using List.reverseRecOn with
  | nil => rfl
  | append_singleton l p ih =>
    rw [List.foldl_append, List.filter_append]
    simp only [List.foldl_cons, List.foldl_nil]
    rw [mapLookup_mapInsert]
    by_cases hp : p.1 = q
    · simp [hp, List.getLast?_concat, List.filter_cons, eq_comm]
    · have hq : ¬ q = p.1 := fun hc => hp hc.symm
      simp [hp, hq, List.filter_cons, ih]

/-- A `HashMap`-style insert keeps the keys unique. -/
theorem keys_nodup_mapInsert (m : FormMap) (k v : String)
    (h : (List.map Prod.fst m).Nodup) :
    (List.map Prod.fst (mapInsert m k v)).Nodup := by
  unfold mapInsert
  rw [List.map_append, List.nodup_append]
  refine ⟨((List.filter_sublist m).map Prod.fst).nodup h, List.nodup_singleton k, ?_⟩
  simp only [List.map_cons, List.map_nil]
  intro x hx hk
  simp only [List.mem_map, List.mem_filter] at hx
  simp only [List.mem_singleton] at hk
  obtain ⟨p, ⟨_, hpk⟩, rfl⟩ := hx
  exact absurd hk (by simpa using hpk)

/-- A fold of inserts keeps the keys unique. -/
theorem keys_nodup_foldl_insert (pairs : List (String × String)) (m : FormMap)
    (h : (List.map Prod.fst m).Nodup) :
    (List.map Prod.fst (pairs.foldl (fun fields p => mapInsert fields p.1 p.2) m)).Nodup := by
  induction pairs generalizing m with
  | nil => exact h
  | cons p t ih => exact ih _ (keys_nodup_mapInsert m p.1 p.2 h)

/-- Inserting under a different key keeps an entry in the map. -/
theorem mem_mapInsert_of_ne (m : FormMap) (k v : String) (q : String × String)
    (hq : q ∈ m) (hne : q.1 ≠ k) : q ∈ mapInsert m k v := by
  unfold mapInsert
  exact List.mem_append_left _ (List.mem_filter.mpr ⟨hq, by simpa using hne⟩)

/-- Every entry of a fold of inserts is either an initial entry or one of
the folded pairs. -/
theorem mem_foldl_insert (pairs : List (String × String)) (m : FormMap)
    (q : String × String) (hq : q ∈ pairs.foldl (fun fields p => mapInsert fields p.1 p.2) m) :
    q ∈ m ∨ q ∈ pairs := by
  induction pairs generalizing m with
  | nil => exact Or.inl hq
  | cons p t ih =>
    rcases ih _ hq with hm | ht
    · unfold mapInsert at hm
      rcases List.mem_append.mp hm with hf | hs
      · exact Or.inl (List.mem_filter.mp hf).1
      · right
        simp only [List.mem_singleton] at hs
        simp [hs]
    · exact Or.inr (List.mem_cons_of_mem _ ht)

mutual
/-- If no node of a subtree matches the ancestor predicate and no ancestor
did either, the descendant search finds nothing in it. -/
theorem findDescNode_eq_nil (a b : Html → Bool) (n : Html)
    (h : ∀ x ∈ allNodesOfNode n, a x = false) :
    findDescNode a b false n = [] :=
  match n with
  | .text _ => by simp [findDescNode]
  | .elem t ats cs => by
    have ha : a (.elem t ats cs) = false := h _ (by simp [allNodesOfNode])
    have hrest : findDescList a b false cs = [] :=
      findDescList_eq_nil a b cs (fun x hx => h x (by simp [allNodesOfNode, hx]))
    simp [findDescNode, ha, hrest]
/-- Forest version of `findDescNode_eq_nil`. -/
theorem findDescList_eq_nil (a b : Html → Bool) (cs : List Html)
    (h : ∀ x ∈ allNodesOfList cs, a x = false) :
    findDescList a b false cs = [] :=
  match cs with
  | [] => by simp [findDescList]
  | c :: rest => by
    have hc : findDescNode a b false c =
        [] := findDescNode_eq_nil a b c (fun x hx => h x (by simp [allNodesOfList, hx]))
    have hrest : findDescList a b false rest =
        [] := findDescList_eq_nil a b rest (fun x hx => h x (by simp [allNodesOfList, hx]))
    simp [findDescList, hc, hrest]
end

/-- A `filterMap` image is matched, in order, by a sublist of the source:
each output element comes from the corresponding source element, and the
source elements appear in their original order. -/
theorem filterMap_exists_sublist {α β : Type} (f : α → Option β) (l : List α) :
    ∃ rs : List α, rs.Sublist l ∧ List.Forall₂ (fun r c => f r = some c) rs (l.filterMap f) := by
  induction l with
  | nil => exact ⟨[], List.Sublist.slnil, by simp⟩
  | cons x t ih =>
    obtain ⟨rs, hs, hf⟩ := ih
    cases hfx : f x with
    | none => exact ⟨rs, hs.cons x, by simpa [List.filterMap_cons, hfx] using hf⟩
    | some c =>
      refine ⟨x :: rs, hs.cons₂ x, ?_⟩
      rw [List.filterMap_cons, hfx]
      exact List.Forall₂.cons hfx hf

/-! ## Claims -/

/-- C5: for every year and term accepted by `query_course` (the `u16`
addition `year + 1` not overflowing), the academic-term key inserted into
the query form under the field name `kksj` is the string
`"{year}-{year+1}-{term}"`. -/
theorem query_form_kksj_key (doc : List Html) (year term : Nat) (h : year < 65535) :
    mapLookup (queryCourseForm doc year term) "kksj"
      = some (Nat.repr year ++ "-" ++ Nat.repr (year + 1) ++ "-" ++ Nat.repr term) := by
  unfold queryCourseForm query_term_key
  rw [mapLookup_mapInsert, if_pos rfl, Nat.mod_eq_of_lt (by omega)]

/-- Witness for C5 at the spec's two examples: `(2018, 1)` and `(2023, 2)`. -/
theorem query_form_kksj_key_witness :
    mapLookup (queryCourseForm [] 2018 1) "kksj" = some "2018-2019-1"
    ∧ mapLookup (queryCourseForm [] 2023 2) "kksj" = some "2023-2024-2" := by
  constructor
  · rw [query_form_kksj_key [] 2018 1 (by decide)]; rfl
  · rw [query_form_kksj_key [] 2023 2 (by decide)]; rfl

/-- C9: the end year of the term key is `year + 1` in 16-bit unsigned
arithmetic: below 65535 it is the mathematical successor, at 65535 the
addition wraps to 0 modulo 2^16 instead of producing 65536. -/
theorem query_term_key_u16_overflow (year term : Nat) :
    (year < 65535 → query_term_key year term
        = Nat.repr year ++ "-" ++ Nat.repr (year + 1) ++ "-" ++ Nat.repr term)
    ∧ (year = 65535 → query_term_key year term = "65535-0-" ++ Nat.repr term
        ∧ query_term_key year term ≠ "65535-65536-" ++ Nat.repr term) := by
  constructor
  · intro h
    unfold query_term_key
    rw [Nat.mod_eq_of_lt (by omega)]
  · intro h
    subst h
    constructor
    · rfl
    · intro hc
      have hlen := congrArg String.length hc
      simp only [String.length_append] at hlen
      have h1 : ("65535-0-" : String).length = 8 := by decide
      have h2 : ("65535-65536-" : String).length = 12 := by decide
      rw [show query_term_key 65535 term = "65535-0-" ++ Nat.repr term from rfl] at hlen
      rw [String.length_append, h1, h2] at hlen
      omega

/-- Witness for C9: the key below the overflow bound and at it. -/
theorem query_term_key_u16_overflow_witness :
    query_term_key 2018 1 = "2018-2019-1"
    ∧ query_term_key 65535 1 = "65535-0-1"
    ∧ query_term_key 65535 1 ≠ "65535-65536-1" := by
  have h1 := (query_term_key_u16_overflow 2018 1).1 (by decide)
  have h2 := (query_term_key_u16_overflow 65535 1).2 rfl
  exact ⟨by rw [h1]; rfl, by rw [h2.1]; rfl,
    by rw [show ("65535-65536-1" : String) = "65535-65536-" ++ Nat.repr 1 from rfl]; exact h2.2⟩

/-- C7: the records produced by the table extractor appear in the order of
their source rows: a sublist of the scanned rows (in document order)
matches the output record for record, so no re-sorting happens. -/
theorem parse_courses_ordered (doc : List Html) :
    ∃ rs : List Html, rs.Sublist ((dataListRows doc).drop 1)
      ∧ List.Forall₂ (fun r c => parseRow r = some c) rs (parse_courses doc) :=
  filterMap_exists_sublist parseRow ((dataListRows doc).drop 1)

/-- C8: extracting courses is a pure function of the document: a run leaves
the document unchanged, and a second run over the document a run leaves
behind yields the same record sequence. -/
theorem parse_courses_pure (doc : List Html) :
    (parse_courses_run doc).2 = doc
    ∧ (parse_courses_run ((parse_courses_run doc).2)).1 = (parse_courses_run doc).1 :=
  ⟨rfl, rfl⟩

/-- C10: the form extractor resolves duplicate input names last-wins: the
value stored under a name is the value of the last input (in document
order) carrying both attributes and that name, and the map never holds two
entries for one name. -/
theorem extract_form_last_wins (doc : List Html) (form : Html → Bool) (name : String) :
    mapLookup (extract_form doc form) name
      = (((inputPairs doc form).filter (fun p => p.1 = name)).getLast?).map (fun p => p.2)
    ∧ (List.map Prod.fst (extract_form doc form)).Nodup := by
  constructor
  · rw [extract_form_eq_foldl, mapLookup_foldl_insert]
  · rw [extract_form_eq_foldl]
    exact keys_nodup_foldl_insert _ _ (by simp)

/-- C3: the table extractor scans all `<tr>` descendants of the `dataList`
element, skips the first unconditionally, and for each remaining row drops
the first `<td>`, produces a record exactly when at least two further cells
(term and code) are present, and fills the eight later fields with the
corresponding cell's text or the empty string when the cell is absent. -/
theorem parse_courses_table_shape (doc : List Html) :
    parse_courses doc = ((dataListRows doc).drop 1).filterMap parseRow
    ∧ ∀ row : Html,
        ((parseRow row).isSome ↔ 3 ≤ (rowCells row).length)
        ∧ ∀ c : Course, parseRow row = some c →
            c.term = optText (rowCells row)[1]?
            ∧ c.code = optText (rowCells row)[2]?
            ∧ c.name = optText (rowCells row)[3]?
            ∧ c.grade = optText (rowCells row)[4]?
            ∧ c.score = optText (rowCells row)[5]?
            ∧ c.point = optText (rowCells row)[6]?
            ∧ c.hours = optText (rowCells row)[7]?
            ∧ c.eval_method = optText (rowCells row)[8]?
            ∧ c.course_type = optText (rowCells row)[9]?
            ∧ c.category = optText (rowCells row)[10]? := by
  refine ⟨rfl, fun row => ?_⟩
  rcases hc : rowCells row with _ | ⟨c0, _ | ⟨c1, _ | ⟨c2, rest⟩⟩⟩
  · refine ⟨by simp [parseRow, hc], fun c h => ?_⟩
    simp [parseRow, hc] at h
  · refine ⟨by simp [parseRow, hc], fun c h => ?_⟩
    simp [parseRow, hc] at h
  · refine ⟨by simp [parseRow, hc], fun c h => ?_⟩
    simp [parseRow, hc] at h
  · constructor
    · simp [parseRow, hc]
    · intro c h
      simp only [parseRow, hc] at h
      cases h
      simp [optText, hc]

/-- Witness for C3 at the sparse fixture row: the record's last five fields
are the empty string, term, code, name and grade its cells' text. -/
theorem parse_courses_table_shape_witness :
    shortCourse.term = optText (rowCells shortRow)[1]?
    ∧ shortCourse.code = optText (rowCells shortRow)[2]?
    ∧ shortCourse.name = optText (rowCells shortRow)[3]?
    ∧ shortCourse.grade = optText (rowCells shortRow)[4]?
    ∧ shortCourse.score = optText (rowCells shortRow)[5]?
    ∧ shortCourse.point = optText (rowCells shortRow)[6]?
    ∧ shortCourse.hours = optText (rowCells shortRow)[7]?
    ∧ shortCourse.eval_method = optText (rowCells shortRow)[8]?
    ∧ shortCourse.course_type = optText (rowCells shortRow)[9]?
    ∧ shortCourse.category = optText (rowCells shortRow)[10]? :=
  ((parse_courses_table_shape tableDoc).2 shortRow).2 shortCourse (by rfl)

/-- C4 as frozen is refuted by duplicate input names: the first of two
inputs sharing the name `a` carries the value `1`, both attributes present,
yet the pair `("a", "1")` is not in the extracted map (the later input
overwrote it). -/
theorem extract_form_exact_pairs_counterexample :
    (Html.elem "input" [("name", "a"), ("value", "1")] [])
        ∈ findDesc dupForm (attrIs "id" "fm1") (nameIs "input")
    ∧ (Html.elem "input" [("name", "a"), ("value", "1")] []).attr "name" = some "a"
    ∧ (Html.elem "input" [("name", "a"), ("value", "1")] []).attr "value" = some "1"
    ∧ ("a", "1") ∉ extract_form dupForm (attrIs "id" "fm1")
    ∧ extract_form dupForm (attrIs "id" "fm1") = [("a", "2")] := by
  refine ⟨List.mem_cons_self _ _, rfl, rfl, by decide, by decide⟩

/-- C4 amended: every entry of the result map is the exact `name`/`value`
pair of some `<input>` descendant of the selected element carrying both
attributes (so inputs missing either attribute contribute nothing); every
such input contributes an entry under its name, whose value — by the
last-wins insert of `extract_form_last_wins` — is that of the last input
with that name; and if no node of the document matches the selector the
result is the empty map. -/
theorem extract_form_entries (doc : List Html) (form : Html → Bool) :
    (∀ q ∈ extract_form doc form, q ∈ inputPairs doc form)
    ∧ (∀ q ∈ inputPairs doc form, ∃ v, mapLookup (extract_form doc form) q.1 = some v)
    ∧ ((∀ x ∈ allNodesOfList doc, form x = false) → extract_form doc form = []) := by
  refine ⟨?_, ?_, ?_⟩
  · intro q hq
    rw [extract_form_eq_foldl] at hq
    rcases mem_foldl_insert _ _ _ hq with h | h
    · exact absurd h (List.not_mem_nil q)
    · exact h
  · intro q hq
    rw [extract_form_eq_foldl, mapLookup_foldl_insert]
    have hmem : q ∈ (inputPairs doc form).filter (fun p => p.1 = q.1) :=
      List.mem_filter.mpr ⟨hq, by simp⟩
    have hne : (inputPairs doc form).filter (fun p => p.1 = q.1) ≠ [] :=
      List.ne_nil_of_mem hmem
    obtain ⟨x, hx⟩ := Option.isSome_iff_exists.mp (List.getLast?_isSome.mpr hne)
    exact ⟨x.2, by rw [hx]; rfl⟩
  · intro h
    unfold extract_form findDesc
    rw [findDescList_eq_nil _ _ _ h]
    rfl

/-- Witness for C4 (amended) on the duplicate-name form and on an empty
document. -/
theorem extract_form_entries_witness :
    (∃ v, mapLookup (extract_form dupForm (attrIs "id" "fm1")) "a" = some v)
    ∧ extract_form [] (attrIs "id" "fm1") = [] := by
  constructor
  · exact (extract_form_entries dupForm (attrIs "id" "fm1")).2.1 ("a", "2") (by decide)
  · exact (extract_form_entries [] (attrIs "id" "fm1")).2.2
      (fun x hx => by simp [allNodesOfList] at hx)

/-- C6: once the login page is obtained, the body `login` submits is exactly
the extracted `fm1` field map with `username` and `password` inserted: the
credential entries are present (overwriting any extracted field of those
names), and every other extracted pair is forwarded unmodified. -/
theorem login_form_body (ua : UserAgent) (u p : String) (page : Response)
    (postLogin : FormMap → Except Unit Response)
    (hpage : isErrorStatus page.status = false) :
    login ua u p (.ok page) postLogin
      = loginPost ua.client (postLogin (buildLoginForm page.body u p))
    ∧ mapLookup (buildLoginForm page.body u p) "username" = some u
    ∧ mapLookup (buildLoginForm page.body u p) "password" = some p
    ∧ ∀ q ∈ extract_form page.body (attrIs "id" "fm1"),
        q.1 ≠ "username" → q.1 ≠ "password" → q ∈ buildLoginForm page.body u p := by
  refine ⟨by simp [login, hpage], ?_, ?_, ?_⟩
  · unfold buildLoginForm
    rw [mapLookup_mapInsert, if_neg (by decide), mapLookup_mapInsert, if_pos rfl]
  · unfold buildLoginForm
    rw [mapLookup_mapInsert, if_pos rfl]
  · intro q hq h1 h2
    exact mem_mapInsert_of_ne _ _ _ _ (mem_mapInsert_of_ne _ _ _ _ hq h1) h2

/-- Witness for C6 on the fixture login page of the spec: the submitted
body holds `lt=LT-1`, `execution=e1s1`, `username=alice`,
`password=secret`. -/
theorem login_form_body_witness :
    mapLookup (buildLoginForm loginPage.body "alice" "secret") "username" = some "alice"
    ∧ mapLookup (buildLoginForm loginPage.body "alice" "secret") "password" = some "secret"
    ∧ ("lt", "LT-1") ∈ buildLoginForm loginPage.body "alice" "secret"
    ∧ ("execution", "e1s1") ∈ buildLoginForm loginPage.body "alice" "secret" := by
  have h := login_form_body ⟨0⟩ "alice" "secret" loginPage (fun _ => .error ()) rfl
  refine ⟨h.2.1, h.2.2.1, ?_, ?_⟩
  · exact h.2.2.2 ("lt", "LT-1") (by decide) (by decide) (by decide)
  · exact h.2.2.2 ("execution", "e1s1") (by decide) (by decide) (by decide)

/-- C2: with the login page in hand, the outcome of `login` is classified
by the credential POST: a success (2xx) status yields the authenticated
agent wrapping the same transport; a client-error (4xx) status yields a
`LoginError`; a server-error (5xx) status or a failed send yields a
transport error that is no `LoginError`. -/
theorem login_outcome_trichotomy (ua : UserAgent) (u p : String) (page : Response)
    (hpage : isErrorStatus page.status = false) (post : Except Unit Response) :
    (∀ resp : Response, post = .ok resp →
      ((200 ≤ resp.status ∧ resp.status < 300) →
        login ua u p (.ok page) (fun _ => post) = .ok { client := ua.client })
      ∧ ((400 ≤ resp.status ∧ resp.status < 500) →
        ∃ m, login ua u p (.ok page) (fun _ => post) = .error (.loginError m))
      ∧ ((500 ≤ resp.status ∧ resp.status < 600) →
        login ua u p (.ok page) (fun _ => post) = .error (.transportError (some resp.status))
        ∧ ∀ m, login ua u p (.ok page) (fun _ => post) ≠ .error (.loginError m)))
    ∧ (post = .error () →
      login ua u p (.ok page) (fun _ => post) = .error (.transportError none)
      ∧ ∀ m, login ua u p (.ok page) (fun _ => post) ≠ .error (.loginError m)) := by
  have hl : login ua u p (.ok page) (fun _ => post) = loginPost ua.client post := by
    simp [login, hpage]
  constructor
  · intro resp hresp
    subst hresp
    rw [hl]
    refine ⟨?_, ?_, ?_⟩
    · intro hs
      have h1 : isErrorStatus resp.status = false := by
        simp only [isErrorStatus, decide_eq_false_iff_not]
        omega
      simp [loginPost, classifyLogin, h1]
    · intro hs
      have h1 : isErrorStatus resp.status = true := by
        simp only [isErrorStatus, decide_eq_true_eq]
        omega
      have h2 : isClientError resp.status = true := by
        simp only [isClientError, decide_eq_true_eq]
        omega
      exact ⟨(match firstAlert resp.body with
              | some alert => strTrim alert.nodeText
              | none => "server return " ++ statusDisplay resp.status),
        by simp [loginPost, classifyLogin, h1, h2]⟩
    · intro hs
      have h1 : isErrorStatus resp.status = true := by
        simp only [isErrorStatus, decide_eq_true_eq]
        omega
      have h2 : isClientError resp.status = false := by
        simp only [isClientError, decide_eq_false_iff_not]
        omega
      exact ⟨by simp [loginPost, classifyLogin, h1, h2],
        fun m => by simp [loginPost, classifyLogin, h1, h2]⟩
  · intro hpost
    subst hpost
    rw [hl]
    exact ⟨rfl, fun m h => by simp [loginPost] at h⟩

/-- Witness for C2: a 200 POST yields the agent with the same transport, a
500 POST a transport error, a failed send a transport error. -/
theorem login_outcome_trichotomy_witness :
    login ⟨7⟩ "u" "p" (.ok ⟨200, []⟩) (fun _ => .ok ⟨200, []⟩) = .ok ⟨7⟩
    ∧ login ⟨7⟩ "u" "p" (.ok ⟨200, []⟩) (fun _ => .ok ⟨500, []⟩)
        = .error (.transportError (some 500))
    ∧ login ⟨7⟩ "u" "p" (.ok ⟨200, []⟩) (fun _ => .error ())
        = .error (.transportError none) := by
  refine ⟨?_, ?_, ?_⟩
  · exact (((login_outcome_trichotomy ⟨7⟩ "u" "p" ⟨200, []⟩ rfl (.ok ⟨200, []⟩)).1
      ⟨200, []⟩ rfl).1 ⟨by decide, by decide⟩)
  · exact ((((login_outcome_trichotomy ⟨7⟩ "u" "p" ⟨200, []⟩ rfl (.ok ⟨500, []⟩)).1
      ⟨500, []⟩ rfl).2.2 ⟨by decide, by decide⟩).1)
  · exact ((login_outcome_trichotomy ⟨7⟩ "u" "p" ⟨200, []⟩ rfl (.error ())).2 rfl).1

/-- C1 (amended): on a 4xx credential POST response, `login` fails with a
`LoginError` whose message is the trimmed text of the first element of
class `alert` nested inside the element with id `fm1` when one exists, and
otherwise the string `"server return "` followed by the status display
(numeric code and canonical reason, e.g. `"server return 401
Unauthorized"`). -/
theorem login_client_error_message (ua : UserAgent) (u p : String) (page resp : Response)
    (hpage : isErrorStatus page.status = false)
    (hresp : 400 ≤ resp.status ∧ resp.status < 500) :
    (∀ alert, firstAlert resp.body = some alert →
      login ua u p (.ok page) (fun _ => .ok resp)
        = .error (.loginError (strTrim alert.nodeText)))
    ∧ (firstAlert resp.body = none →
      login ua u p (.ok page) (fun _ => .ok resp)
        = .error (.loginError ("server return " ++ statusDisplay resp.status))) := by
  have hl : login ua u p (.ok page) (fun _ => .ok resp) = classifyLogin ua.client resp := by
    simp [login, hpage, loginPost]
  have h1 : isErrorStatus resp.status = true := by
    simp only [isErrorStatus, decide_eq_true_eq]
    omega
  have h2 : isClientError resp.status = true := by
    simp only [isClientError, decide_eq_true_eq]
    omega
  constructor
  · intro alert ha
    rw [hl]
    simp [classifyLogin, h1, h2, ha]
  · intro ha
    rw [hl]
    simp [classifyLogin, h1, h2, ha]

/-- Counterexample to C1 as frozen: a 401 POST response with no alert
banner produces the message `"server return 401 Unauthorized"` (the code
says `"server return"` and prints the reqwest status with its canonical
reason), not `"server returned 401"`. -/
theorem login_client_error_message_counterexample :
    login ⟨0⟩ "u" "p" (.ok ⟨200, []⟩) (fun _ => .ok ⟨401, []⟩)
      = .error (.loginError "server return 401 Unauthorized")
    ∧ "server return 401 Unauthorized" ≠ "server returned 401" :=
  ⟨rfl, by decide⟩

/-- Witness for C1 (amended): the alert banner's trimmed text when one
exists, the fallback message when none does. -/
theorem login_client_error_message_witness :
    login ⟨0⟩ "u" "p" (.ok ⟨200, []⟩) (fun _ => .ok alertResp)
      = .error (.loginError "Invalid credentials")
    ∧ login ⟨0⟩ "u" "p" (.ok ⟨200, []⟩) (fun _ => .ok ⟨404, []⟩)
      = .error (.loginError "server return 404 Not Found") := by
  constructor
  · have h := (login_client_error_message ⟨0⟩ "u" "p" ⟨200, []⟩ alertResp rfl
      (by decide)).1 alertNode rfl
    rw [h]
    rfl
  · have h := (login_client_error_message ⟨0⟩ "u" "p" ⟨200, []⟩ ⟨404, []⟩ rfl
      (by decide)).2 rfl
    rw [h]
    rfl
